import Mathlib

/-!
Verification of the in-memory banking service (`src/main.py`).

The service keeps a mapping from user name to an account record holding a
`pin` and a `bank_balance`, seeded with two fixed entries, and exposes four
operations: list users, deposit, authenticate, bank transfer.  We embed the
Python handlers shallowly: the mutable global dictionary `users` becomes an
explicit association-list state threaded through each operation, Python
floats become exact rationals, and a raised `HTTPException(status_code,
detail)` becomes an `Except.error` carrying the same status code and detail
string, returned together with the (unchanged) state.
-/

namespace BankApp

/-- One account record: `{"pin": ..., "bank_balance": ...}` in `main.py`. -/
structure Account where
  pin : Int
  bank_balance : Rat
deriving DecidableEq

/-- Embeds Python `HTTPException(status_code=..., detail=...)`. -/
structure HTTPError where
  status_code : Nat
  detail : String
deriving DecidableEq

/-- The `UserDetailsResponse` pydantic model: `{name, pin, bank_balance}`. -/
structure UserDetailsResponse where
  name : String
  pin : Int
  bank_balance : Rat
deriving DecidableEq

deriving instance DecidableEq for Except

/-- The state of the service: the `users` dictionary, name keyed. -/
abbrev Bank := List (String × Account)

/-- The hardcoded seed state of `main.py`:
`{"Ali": {"pin": 1234, "bank_balance": 10000.0}, "Sara": {"pin": 4321, "bank_balance": 15000.0}}`. -/
def initialUsers : Bank :=
  [("Ali", ⟨1234, 10000⟩), ("Sara", ⟨4321, 15000⟩)]

/-- Python `users.get(name)`: dictionary lookup returning `None` when absent. -/
def usersGet (b : Bank) (name : String) : Option Account :=
  List.lookup name b

/-- In-place mutation `users[name]["bank_balance"] = v`: every entry keyed by
`name` gets its balance replaced by `v`; all other entries are untouched. -/
def setBalance (b : Bank) (name : String) (v : Rat) : Bank :=
  b.map fun p => if p.1 = name then (p.1, ⟨p.2.pin, v⟩) else p

/-- `_authenticate_user` from `main.py`: the user exists and the PIN matches. -/
def authUser (b : Bank) (name : String) (pin : Int) : Bool :=
  match usersGet b name with
  | some user => user.pin == pin
  | none => false

/-- `GET /users` (`get_users`): returns the full mapping verbatim, no side effect. -/
def get_users (b : Bank) : Bank := b

/-- `POST /deposit` (`deposit`): 404 if the name is unknown, 400 if the amount
is not positive, otherwise adds the amount to the balance and returns the
updated record. -/
def deposit (b : Bank) (name : String) (amount_to_deposit : Rat) :
    Except HTTPError UserDetailsResponse × Bank :=
  match usersGet b name with
  | none => (.error ⟨404, "User \x27" ++ name ++ "\x27 not found."⟩, b)
  | some user =>
    if amount_to_deposit ≤ 0 then
      (.error ⟨400, "Deposit amount must be positive."⟩, b)
    else
      let newBal := user.bank_balance + amount_to_deposit
      (.ok ⟨name, user.pin, newBal⟩, setBalance b name newBal)

/-- `POST /authenticate` (`authenticate`): returns the user record when
`_authenticate_user` succeeds, else a single generic 401.  When the guard is
true the lookup is necessarily `some`; the `none` branch is unreachable. -/
def authenticate (b : Bank) (name : String) (pin_number : Int) :
    Except HTTPError UserDetailsResponse × Bank :=
  if authUser b name pin_number then
    match usersGet b name with
    | some user_details => (.ok ⟨name, user_details.pin, user_details.bank_balance⟩, b)
    | none => (.error ⟨401, "Invalid credentials"⟩, b)
  else
    (.error ⟨401, "Invalid credentials"⟩, b)

/-- `POST /bank-transfer` (`bank_transfer`), with the validations in the
source order: sender authentication, recipient existence, distinct names,
positive amount, sufficient funds; then the two balance mutations.  When the
authentication guard is true the sender lookup is necessarily `some`; the
`none` sender branch is unreachable (and yields the same 401 the guard
would). -/
def bank_transfer (b : Bank) (sender_name : String) (sender_pin : Int)
    (recipients_name : String) (amount_to_transfer : Rat) :
    Except HTTPError UserDetailsResponse × Bank :=
  if authUser b sender_name sender_pin then
    match usersGet b sender_name, usersGet b recipients_name with
    | some sender, some recipient =>
      if sender_name = recipients_name then
        (.error ⟨400, "Sender and recipient cannot be the same person."⟩, b)
      else if amount_to_transfer ≤ 0 then
        (.error ⟨400, "Transfer amount must be positive."⟩, b)
      else if sender.bank_balance < amount_to_transfer then
        (.error ⟨400, "Insufficient funds for transfer."⟩, b)
      else
        let b1 := setBalance b sender_name (sender.bank_balance - amount_to_transfer)
        let b2 := setBalance b1 recipients_name (recipient.bank_balance + amount_to_transfer)
        (.ok ⟨recipients_name, recipient.pin, recipient.bank_balance + amount_to_transfer⟩, b2)
    | some _, none =>
      (.error ⟨404, "Recipient \x27" ++ recipients_name ++ "\x27 not found."⟩, b)
    | none, _ => (.error ⟨401, "Invalid sender credentials."⟩, b)
  else
    (.error ⟨401, "Invalid sender credentials."⟩, b)

/-- A request to any of the four endpoints, for reasoning about sequences of
operations against the shared state. -/
inductive Op where
  | list_users : Op
  | dep (name : String) (amount_to_deposit : Rat) : Op
  | auth (name : String) (pin_number : Int) : Op
  | xfer (sender_name : String) (sender_pin : Int) (recipients_name : String)
      (amount_to_transfer : Rat) : Op

/-- The state after handling one request. -/
def step (b : Bank) : Op → Bank
  | .list_users => b
  | .dep n a => (deposit b n a).2
  | .auth n p => (authenticate b n p).2
  | .xfer s p r a => (bank_transfer b s p r a).2

/-- The state after a finite sequence of requests. -/
def run (b : Bank) (ops : List Op) : Bank := ops.foldl step b

/-! ### Helper lemmas about the state operations -/

/-- `_authenticate_user` succeeds exactly when the user exists and the PIN
matches. -/
theorem authUser_iff (b : Bank) (n : String) (p : Int) :
    authUser b n p = true ↔ ∃ u, usersGet b n = some u ∧ u.pin = p := by
  unfold authUser
  cases h : usersGet b n with
  | none => simp
  | some u => simp [beq_iff_eq]

/-- Unfolding dictionary lookup one entry at a time. -/
theorem usersGet_cons (k : String) (a : Account) (t : Bank) (m : String) :
    usersGet ((k, a) :: t) m = if m = k then some a else usersGet t m := by
  by_cases h : m = k
  · subst h; simp [usersGet, List.lookup_cons]
  · rw [if_neg h]
    simp [usersGet, List.lookup_cons, beq_eq_false_iff_ne.mpr h]

/-- Unfolding the balance update one entry at a time. -/
theorem setBalance_cons (k : String) (a : Account) (t : Bank) (n : String)
    (v : Rat) :
    setBalance ((k, a) :: t) n v =
      (if k = n then (k, ⟨a.pin, v⟩) else (k, a)) :: setBalance t n v := by
  by_cases h : k = n <;> simp [setBalance, h]

/-- Lookup after a balance update: the updated name maps to the old record
with the new balance; every other name is untouched. -/
theorem usersGet_setBalance (b : Bank) (n : String) (v : Rat) (m : String) :
    usersGet (setBalance b n v) m =
      if m = n then Option.map (fun u => ⟨u.pin, v⟩) (usersGet b n)
      else usersGet b m := by
  induction b with
  | nil => simp [usersGet, setBalance]
  | cons hd tl ih =>
    obtain ⟨k, a⟩ := hd
    rw [setBalance_cons]
    by_cases hk : k = n
    · subst hk
      by_cases hm : m = k
      · subst hm
        simp [usersGet_cons]
      · simp [usersGet_cons, hm, ih]
    · have hnk : ¬n = k := fun h => hk h.symm
      by_cases hm : m = k
      · subst hm
        simp [usersGet_cons, hk]
      · simp [usersGet_cons, hk, hnk, hm, ih]

theorem usersGet_setBalance_ne (b : Bank) (n : String) (v : Rat) (m : String)
    (h : m ≠ n) : usersGet (setBalance b n v) m = usersGet b m := by
  rw [usersGet_setBalance, if_neg h]

theorem usersGet_setBalance_self (b : Bank) (n : String) (v : Rat) (u : Account)
    (h : usersGet b n = some u) :
    usersGet (setBalance b n v) n = some ⟨u.pin, v⟩ := by
  rw [usersGet_setBalance, if_pos rfl, h]; rfl

/-- A successful lookup is a member of the association list. -/
theorem mem_of_usersGet (b : Bank) (n : String) (u : Account)
    (h : usersGet b n = some u) : (n, u) ∈ b := by
  induction b with
  | nil => simp [usersGet] at h
  | cons hd tl ih =>
    obtain ⟨k, a⟩ := hd
    rw [usersGet_cons] at h
    by_cases hk : n = k
    · subst hk
      rw [if_pos rfl, Option.some_inj] at h
      subst h; exact List.mem_cons_self ..
    · rw [if_neg hk] at h
      exact List.mem_cons_of_mem _ (ih h)

/-- Updating a balance changes no key and no ordering of the mapping. -/
theorem keys_setBalance (b : Bank) (n : String) (v : Rat) :
    (setBalance b n v).map Prod.fst = b.map Prod.fst := by
  induction b with
  | nil => rfl
  | cons hd tl ih =>
    simp only [setBalance, List.map_cons] at *
    by_cases hk : hd.1 = n <;> simp [hk, ih]

/-- `setBalance` with a non-negative value preserves non-negativity of all
balances. -/
theorem nonneg_setBalance (b : Bank) (n : String) (v : Rat)
    (hb : ∀ p ∈ b, 0 ≤ p.2.bank_balance) (hv : 0 ≤ v) :
    ∀ p ∈ setBalance b n v, 0 ≤ p.2.bank_balance := by
  intro p hp
  simp only [setBalance, List.mem_map] at hp
  obtain ⟨q, hq, hpq⟩ := hp
  by_cases hk : q.1 = n
  · rw [if_pos hk] at hpq; subst hpq; exact hv
  · rw [if_neg hk] at hpq; subst hpq; exact hb q hq

/-- The resulting state of a deposit: either unchanged (an error path) or a
single balance update with the validated amount. -/
theorem deposit_state_cases (b : Bank) (n : String) (a : Rat) :
    (deposit b n a).2 = b ∨
      ∃ u, usersGet b n = some u ∧ 0 < a ∧
        (deposit b n a).2 = setBalance b n (u.bank_balance + a) := by
  unfold deposit
  cases h : usersGet b n with
  | none => simp
  | some u =>
    by_cases ha : a ≤ 0
    · simp [ha]
    · right
      exact ⟨u, rfl, lt_of_not_le ha, by simp [ha]⟩

/-- The resulting state of a transfer: either unchanged (an error path) or the
two balance updates with all five validations established. -/
theorem transfer_state_cases (b : Bank) (sn : String) (sp : Int)
    (rn : String) (a : Rat) :
    (bank_transfer b sn sp rn a).2 = b ∨
      ∃ s r, usersGet b sn = some s ∧ usersGet b rn = some r ∧ sn ≠ rn ∧
        0 < a ∧ a ≤ s.bank_balance ∧
        (bank_transfer b sn sp rn a).2 =
          setBalance (setBalance b sn (s.bank_balance - a)) rn
            (r.bank_balance + a) := by
  unfold bank_transfer
  by_cases hauth : authUser b sn sp
  · cases hs : usersGet b sn with
    | none => simp [hauth, hs]
    | some s =>
      cases hr : usersGet b rn with
      | none => simp [hauth, hs, hr]
      | some r =>
        by_cases hne : sn = rn
        · subst hne
          simp [hauth, hs]
        · by_cases ha : a ≤ 0
          · simp [hauth, hs, hr, hne, ha]
          · by_cases hbal : s.bank_balance < a
            · simp [hauth, hs, hr, hne, ha, hbal]
            · right
              exact ⟨s, r, rfl, rfl, hne, lt_of_not_le ha, le_of_not_lt hbal,
                by simp [hauth, hs, hr, hne, ha, hbal]⟩
  · simp [hauth]

/-! ### Claim theorems -/

/-- C1: a transfer whose sender exists with matching pin, whose recipient
exists, with distinct names, positive amount and sufficient sender balance,
decrements the sender balance by the amount, increments the recipient balance
by the amount, and returns the updated recipient record `{name, pin,
balance}` — the sender's new balance is not part of the returned record. -/
theorem transfer_success_spec (b : Bank) (sn rn : String) (sp : Int)
    (amt : Rat) (s r : Account)
    (hs : usersGet b sn = some s) (hpin : s.pin = sp)
    (hr : usersGet b rn = some r) (hne : sn ≠ rn)
    (hamt : 0 < amt) (hbal : amt ≤ s.bank_balance) :
    bank_transfer b sn sp rn amt =
      (.ok ⟨rn, r.pin, r.bank_balance + amt⟩,
        setBalance (setBalance b sn (s.bank_balance - amt)) rn
          (r.bank_balance + amt)) ∧
    usersGet (bank_transfer b sn sp rn amt).2 sn =
      some ⟨s.pin, s.bank_balance - amt⟩ ∧
    usersGet (bank_transfer b sn sp rn amt).2 rn =
      some ⟨r.pin, r.bank_balance + amt⟩ := by
  have hauth : authUser b sn sp = true := (authUser_iff b sn sp).mpr ⟨s, hs, hpin⟩
  have heq : bank_transfer b sn sp rn amt =
      (.ok ⟨rn, r.pin, r.bank_balance + amt⟩,
        setBalance (setBalance b sn (s.bank_balance - amt)) rn
          (r.bank_balance + amt)) := by
    unfold bank_transfer
    simp [hauth, hs, hr, hne, not_le.mpr hamt, not_lt.mpr hbal]
  refine ⟨heq, ?_, ?_⟩
  · rw [heq]
    rw [usersGet_setBalance_ne _ _ _ _ hne]
    exact usersGet_setBalance_self b sn _ s hs
  · rw [heq]
    apply usersGet_setBalance_self
    rw [usersGet_setBalance_ne _ _ _ _ (Ne.symm hne)]
    exact hr

theorem transfer_success_spec_witness :
    bank_transfer initialUsers "Ali" 1234 "Sara" 500 =
      (.ok ⟨"Sara", 4321, (15000 : Rat) + 500⟩,
        setBalance (setBalance initialUsers "Ali" ((10000 : Rat) - 500)) "Sara"
          ((15000 : Rat) + 500)) ∧
    usersGet (bank_transfer initialUsers "Ali" 1234 "Sara" 500).2 "Ali" =
      some ⟨1234, (10000 : Rat) - 500⟩ ∧
    usersGet (bank_transfer initialUsers "Ali" 1234 "Sara" 500).2 "Sara" =
      some ⟨4321, (15000 : Rat) + 500⟩ :=
  transfer_success_spec initialUsers "Ali" "Sara" 1234 500 ⟨1234, 10000⟩
    ⟨4321, 15000⟩ (by decide) rfl (by decide) (by decide) (by norm_num)
    (by norm_num)

/-- C2: transfer runs its validations in the source order — sender
authentication, recipient existence, distinct names, amount positivity,
sufficient funds — so a failed sender authentication yields the 401
Unauthorized error regardless of every other field. -/
theorem transfer_validation_order (b : Bank) (sn rn : String) (sp : Int)
    (amt : Rat) :
    (authUser b sn sp = false →
      bank_transfer b sn sp rn amt =
        (.error ⟨401, "Invalid sender credentials."⟩, b)) ∧
    (∀ s, usersGet b sn = some s → s.pin = sp → usersGet b rn = none →
      bank_transfer b sn sp rn amt =
        (.error ⟨404, "Recipient \x27" ++ rn ++ "\x27 not found."⟩, b)) ∧
    (∀ s r, usersGet b sn = some s → s.pin = sp → usersGet b rn = some r →
      sn = rn →
      bank_transfer b sn sp rn amt =
        (.error ⟨400, "Sender and recipient cannot be the same person."⟩, b)) ∧
    (∀ s r, usersGet b sn = some s → s.pin = sp → usersGet b rn = some r →
      sn ≠ rn → amt ≤ 0 →
      bank_transfer b sn sp rn amt =
        (.error ⟨400, "Transfer amount must be positive."⟩, b)) ∧
    (∀ s r, usersGet b sn = some s → s.pin = sp → usersGet b rn = some r →
      sn ≠ rn → 0 < amt → s.bank_balance < amt →
      bank_transfer b sn sp rn amt =
        (.error ⟨400, "Insufficient funds for transfer."⟩, b)) := by
  refine ⟨?_, ?_, ?_, ?_, ?_⟩
  · intro h
    unfold bank_transfer
    simp [h]
  · intro s hs hp hr
    have hauth := (authUser_iff b sn sp).mpr ⟨s, hs, hp⟩
    unfold bank_transfer
    simp [hauth, hs, hr]
  · intro s r hs hp hr he
    subst he
    have hauth := (authUser_iff b sn sp).mpr ⟨s, hs, hp⟩
    unfold bank_transfer
    simp [hauth, hs]
  · intro s r hs hp hr hne ha
    have hauth := (authUser_iff b sn sp).mpr ⟨s, hs, hp⟩
    unfold bank_transfer
    simp [hauth, hs, hr, hne, ha]
  · intro s r hs hp hr hne ha hbal
    have hauth := (authUser_iff b sn sp).mpr ⟨s, hs, hp⟩
    unfold bank_transfer
    simp [hauth, hs, hr, hne, not_le.mpr ha, hbal]

theorem transfer_validation_order_witness :
    authUser initialUsers "Ali" 9999 = false ∧
    usersGet initialUsers "Ghost" = none ∧
    bank_transfer initialUsers "Ali" 9999 "Ghost" 100 =
      (.error ⟨401, "Invalid sender credentials."⟩, initialUsers) :=
  ⟨by decide, by decide,
    (transfer_validation_order initialUsers "Ali" "Ghost" 9999 100).1 (by decide)⟩

/-- C3: a deposit to an existing account of a positive amount sets the
balance to the old balance plus the amount exactly and returns the updated
record `{name, pin, balance}`. -/
theorem deposit_success_spec (b : Bank) (n : String) (amt : Rat) (u : Account)
    (hu : usersGet b n = some u) (ha : 0 < amt) :
    deposit b n amt =
      (.ok ⟨n, u.pin, u.bank_balance + amt⟩,
        setBalance b n (u.bank_balance + amt)) ∧
    usersGet (deposit b n amt).2 n = some ⟨u.pin, u.bank_balance + amt⟩ := by
  have heq : deposit b n amt =
      (.ok ⟨n, u.pin, u.bank_balance + amt⟩,
        setBalance b n (u.bank_balance + amt)) := by
    unfold deposit
    simp [hu, not_le.mpr ha]
  refine ⟨heq, ?_⟩
  rw [heq]
  exact usersGet_setBalance_self b n _ u hu

theorem deposit_success_spec_witness :
    deposit initialUsers "Ali" 5 =
      (.ok ⟨"Ali", 1234, (10000 : Rat) + 5⟩,
        setBalance initialUsers "Ali" ((10000 : Rat) + 5)) ∧
    usersGet (deposit initialUsers "Ali" 5).2 "Ali" =
      some ⟨1234, (10000 : Rat) + 5⟩ :=
  deposit_success_spec initialUsers "Ali" 5 ⟨1234, 10000⟩ (by decide) (by norm_num)

/-- C4: authentication succeeds exactly when an account with that name exists
and its pin equals the candidate pin; on success it returns the account
record, and the two failure causes — unknown name and wrong pin — produce one
and the same 401 Unauthorized error, indistinguishable to the caller. -/
theorem authenticate_spec (b : Bank) (n : String) (p : Int) :
    ((∃ u, usersGet b n = some u ∧ u.pin = p) ↔
      ∃ resp, (authenticate b n p).1 = .ok resp) ∧
    (∀ u, usersGet b n = some u → u.pin = p →
      authenticate b n p = (.ok ⟨n, u.pin, u.bank_balance⟩, b)) ∧
    (usersGet b n = none →
      authenticate b n p = (.error ⟨401, "Invalid credentials"⟩, b)) ∧
    (∀ u, usersGet b n = some u → u.pin ≠ p →
      authenticate b n p = (.error ⟨401, "Invalid credentials"⟩, b)) := by
  have hsucc : ∀ u, usersGet b n = some u → u.pin = p →
      authenticate b n p = (.ok ⟨n, u.pin, u.bank_balance⟩, b) := by
    intro u hu hp
    have hauth := (authUser_iff b n p).mpr ⟨u, hu, hp⟩
    unfold authenticate
    simp [hauth, hu]
  have hnone : usersGet b n = none →
      authenticate b n p = (.error ⟨401, "Invalid credentials"⟩, b) := by
    intro h
    have hauth : authUser b n p = false := by unfold authUser; rw [h]
    unfold authenticate
    simp [hauth]
  have hwrong : ∀ u, usersGet b n = some u → u.pin ≠ p →
      authenticate b n p = (.error ⟨401, "Invalid credentials"⟩, b) := by
    intro u hu hp
    have hauth : authUser b n p = false := by
      unfold authUser
      rw [hu]
      exact beq_eq_false_iff_ne.mpr hp
    unfold authenticate
    simp [hauth]
  refine ⟨⟨?_, ?_⟩, hsucc, hnone, hwrong⟩
  · rintro ⟨u, hu, hp⟩
    exact ⟨⟨n, u.pin, u.bank_balance⟩, by rw [hsucc u hu hp]⟩
  · rintro ⟨resp, hresp⟩
    cases hu : usersGet b n with
    | none => rw [hnone hu] at hresp; cases hresp
    | some u =>
      by_cases hp : u.pin = p
      · exact ⟨u, rfl, hp⟩
      · rw [hwrong u hu hp] at hresp; cases hresp

theorem authenticate_spec_witness :
    authenticate initialUsers "Ali" 1234 = (.ok ⟨"Ali", 1234, 10000⟩, initialUsers) ∧
    authenticate initialUsers "Ali" 9999 =
      (.error ⟨401, "Invalid credentials"⟩, initialUsers) ∧
    authenticate initialUsers "Nobody" 1234 =
      (.error ⟨401, "Invalid credentials"⟩, initialUsers) :=
  ⟨(authenticate_spec initialUsers "Ali" 1234).2.1 ⟨1234, 10000⟩ (by decide) rfl,
    (authenticate_spec initialUsers "Ali" 9999).2.2.2 ⟨1234, 10000⟩ (by decide)
      (by decide),
    (authenticate_spec initialUsers "Nobody" 1234).2.2.1 (by decide)⟩

/-- C5: every operation is atomic on error — whenever deposit, authenticate or
transfer returns an error, the account mapping after the call is exactly the
mapping before it. -/
theorem error_atomicity (b : Bank) (n na : String) (amt : Rat) (p : Int)
    (sn rn : String) (sp : Int) (ta : Rat) :
    (∀ e, (deposit b n amt).1 = .error e → (deposit b n amt).2 = b) ∧
    (∀ e, (authenticate b na p).1 = .error e → (authenticate b na p).2 = b) ∧
    (∀ e, (bank_transfer b sn sp rn ta).1 = .error e →
      (bank_transfer b sn sp rn ta).2 = b) := by
  refine ⟨?_, ?_, ?_⟩
  · intro e
    unfold deposit
    cases h : usersGet b n with
    | none => simp
    | some u => by_cases ha : amt ≤ 0 <;> simp [ha]
  · intro e
    unfold authenticate
    by_cases h : authUser b na p
    · cases hu : usersGet b na <;> simp [h, hu]
    · simp [h]
  · intro e
    unfold bank_transfer
    by_cases hauth : authUser b sn sp
    · cases hs : usersGet b sn with
      | none => simp [hauth]
      | some s =>
        cases hr : usersGet b rn with
        | none => simp [hauth, hs]
        | some r =>
          by_cases hne : sn = rn
          · subst hne; simp [hauth, hs]
          · by_cases ha : ta ≤ 0
            · simp [hauth, hs, hr, hne, ha]
            · by_cases hb : s.bank_balance < ta <;>
                simp [hauth, hs, hr, hne, ha, hb]
    · simp [hauth]

theorem error_atomicity_witness :
    (deposit initialUsers "Ghost" 5).2 = initialUsers ∧
    (authenticate initialUsers "Nobody" 1234).2 = initialUsers ∧
    (bank_transfer initialUsers "Ali" 1234 "Ali" 50).2 = initialUsers :=
  ⟨(error_atomicity initialUsers "Ghost" "Nobody" 5 1234 "Ali" "Ali" 1234 50).1
      ⟨404, "User \x27Ghost\x27 not found."⟩ (by decide),
    (error_atomicity initialUsers "Ghost" "Nobody" 5 1234 "Ali" "Ali" 1234 50).2.1
      ⟨401, "Invalid credentials"⟩ (by decide),
    (error_atomicity initialUsers "Ghost" "Nobody" 5 1234 "Ali" "Ali" 1234 50).2.2
      ⟨400, "Sender and recipient cannot be the same person."⟩ (by decide)⟩

/-- C6: starting from the seed state, after any finite sequence of list,
deposit, authenticate and transfer requests — successful or failed — every
account balance is non-negative. -/
theorem balances_nonneg (ops : List Op) :
    ∀ q ∈ run initialUsers ops, 0 ≤ q.2.bank_balance := by
  have hstep : ∀ (b : Bank) (op : Op), (∀ q ∈ b, 0 ≤ q.2.bank_balance) →
      ∀ q ∈ step b op, 0 ≤ q.2.bank_balance := by
    intro b op hb
    cases op with
    | list_users => exact hb
    | dep n a =>
      rcases deposit_state_cases b n a with h | ⟨u, hu, ha, h⟩
      · rw [step, h]; exact hb
      · rw [step, h]
        apply nonneg_setBalance _ _ _ hb
        have h0 : 0 ≤ u.bank_balance := hb (n, u) (mem_of_usersGet b n u hu)
        linarith
    | auth n p =>
      have h2 : (authenticate b n p).2 = b := by
        unfold authenticate
        by_cases h : authUser b n p
        · cases hu : usersGet b n <;> simp [h, hu]
        · simp [h]
      rw [step, h2]; exact hb
    | xfer sn sp rn a =>
      rcases transfer_state_cases b sn sp rn a with h | ⟨s, r, hs, hr, _, ha, hbal, h⟩
      · rw [step, h]; exact hb
      · rw [step, h]
        apply nonneg_setBalance
        · apply nonneg_setBalance _ _ _ hb
          linarith
        · have h0 : 0 ≤ r.bank_balance := hb (rn, r) (mem_of_usersGet b rn r hr)
          linarith
  have hrun : ∀ (l : List Op) (b : Bank), (∀ q ∈ b, 0 ≤ q.2.bank_balance) →
      ∀ q ∈ run b l, 0 ≤ q.2.bank_balance := by
    intro l
    induction l with
    | nil => intro b hb; exact hb
    | cons op t ih => intro b hb; exact ih (step b op) (hstep b op hb)
  apply hrun ops initialUsers
  intro q hq
  simp only [initialUsers, List.mem_cons, List.not_mem_nil, or_false] at hq
  rcases hq with h | h <;> subst h <;> norm_num

theorem balances_nonneg_witness :
    0 ≤ (("Ali", (⟨1234, 10000⟩ : Account)) : String × Account).2.bank_balance :=
  balances_nonneg [Op.list_users, Op.auth "Ali" 1234]
    ("Ali", ⟨1234, 10000⟩) (by decide)

/-- C7: deposit fails with 404 NotFound exactly when the name is unknown and
with 400 InvalidAmount exactly when the account exists and the amount is not
positive; the unknown-name check comes first, so an unknown name with a
non-positive amount yields NotFound. -/
theorem deposit_error_spec (b : Bank) (n : String) (amt : Rat) :
    (usersGet b n = none →
      deposit b n amt =
        (.error ⟨404, "User \x27" ++ n ++ "\x27 not found."⟩, b)) ∧
    (∀ u, usersGet b n = some u → amt ≤ 0 →
      deposit b n amt = (.error ⟨400, "Deposit amount must be positive."⟩, b)) ∧
    (∀ e, (deposit b n amt).1 = .error e → usersGet b n = none ∨ amt ≤ 0) := by
  refine ⟨?_, ?_, ?_⟩
  · intro h
    unfold deposit
    simp [h]
  · intro u hu ha
    unfold deposit
    simp [hu, ha]
  · intro e
    unfold deposit
    cases h : usersGet b n with
    | none => simp
    | some u =>
      by_cases ha : amt ≤ 0 <;> simp [ha]

theorem deposit_error_spec_witness :
    deposit initialUsers "Ghost" (-5) =
      (.error ⟨404, "User \x27Ghost\x27 not found."⟩, initialUsers) ∧
    deposit initialUsers "Ali" (-5) =
      (.error ⟨400, "Deposit amount must be positive."⟩, initialUsers) :=
  ⟨(deposit_error_spec initialUsers "Ghost" (-5)).1 (by decide),
    (deposit_error_spec initialUsers "Ali" (-5)).2.1 ⟨1234, 10000⟩ (by decide)
      (by norm_num)⟩

/-- C8: a self-transfer by an authenticated sender fails with the 400
InvalidOperation error for every amount — in particular for a positive amount
covered by the balance — and leaves the state unchanged. -/
theorem self_transfer_invalid (b : Bank) (n : String) (p : Int) (amt : Rat)
    (u : Account) (hu : usersGet b n = some u) (hp : u.pin = p) :
    bank_transfer b n p n amt =
      (.error ⟨400, "Sender and recipient cannot be the same person."⟩, b) := by
  have hauth := (authUser_iff b n p).mpr ⟨u, hu, hp⟩
  unfold bank_transfer
  simp [hauth, hu]

theorem self_transfer_invalid_witness :
    (0 : Rat) < 500 ∧ (500 : Rat) ≤ 10000 ∧
    bank_transfer initialUsers "Ali" 1234 "Ali" 500 =
      (.error ⟨400, "Sender and recipient cannot be the same person."⟩,
        initialUsers) :=
  ⟨by norm_num, by norm_num,
    self_transfer_invalid initialUsers "Ali" 1234 500 ⟨1234, 10000⟩ (by decide) rfl⟩

/-- A balance update preserves each account's pin. -/
theorem pin_setBalance (b : Bank) (n : String) (v : Rat) (m : String)
    (u2 : Account) :
    usersGet (setBalance b n v) m = some u2 →
    ∃ u1, usersGet b m = some u1 ∧ u2.pin = u1.pin := by
  rw [usersGet_setBalance]
  by_cases h : m = n
  · subst h
    rw [if_pos rfl]
    cases hu : usersGet b m with
    | none => simp
    | some u =>
      intro h2
      have h3 : (⟨u.pin, v⟩ : Account) = u2 := by simpa using h2
      exact ⟨u, rfl, by rw [← h3]⟩
  · rw [if_neg h]
    intro h2
    exact ⟨u2, h2, rfl⟩

/-- C9: frame property — list and authenticate never modify the state; a
successful deposit changes only the named account's balance; a successful
transfer changes only the sender's and recipient's balances; no operation
changes a pin or adds or removes an account name. -/
theorem frame_spec (b : Bank) :
    (step b Op.list_users = b ∧ get_users b = b) ∧
    (∀ op, (step b op).map Prod.fst = b.map Prod.fst) ∧
    (∀ op m u2, usersGet (step b op) m = some u2 →
      ∃ u1, usersGet b m = some u1 ∧ u2.pin = u1.pin) ∧
    (∀ na p, (authenticate b na p).2 = b) ∧
    (∀ n a resp b2, deposit b n a = (.ok resp, b2) →
      ∀ m, m ≠ n → usersGet b2 m = usersGet b m) ∧
    (∀ sn sp rn a resp b2, bank_transfer b sn sp rn a = (.ok resp, b2) →
      ∀ m, m ≠ sn → m ≠ rn → usersGet b2 m = usersGet b m) := by
  have hauthst : ∀ (na : String) (p : Int), (authenticate b na p).2 = b := by
    intro na p
    unfold authenticate
    by_cases h : authUser b na p
    · cases hu : usersGet b na <;> simp [h, hu]
    · simp [h]
  have hstates : ∀ op : Op, step b op = b ∨
      (∃ n v, step b op = setBalance b n v) ∨
      (∃ n1 v1 n2 v2, step b op = setBalance (setBalance b n1 v1) n2 v2) := by
    intro op
    cases op with
    | list_users => exact Or.inl rfl
    | dep n a =>
      rcases deposit_state_cases b n a with h | ⟨u, _, _, h⟩
      · exact Or.inl h
      · exact Or.inr (Or.inl ⟨n, _, h⟩)
    | auth na p => exact Or.inl (hauthst na p)
    | xfer sn sp rn a =>
      rcases transfer_state_cases b sn sp rn a with h | ⟨s, r, _, _, _, _, _, h⟩
      · exact Or.inl h
      · exact Or.inr (Or.inr ⟨sn, _, rn, _, h⟩)
  refine ⟨⟨rfl, rfl⟩, ?_, ?_, hauthst, ?_, ?_⟩
  · intro op
    rcases hstates op with h | ⟨n, v, h⟩ | ⟨n1, v1, n2, v2, h⟩
    · rw [h]
    · rw [h, keys_setBalance]
    · rw [h, keys_setBalance, keys_setBalance]
  · intro op m u2
    rcases hstates op with h | ⟨n, v, h⟩ | ⟨n1, v1, n2, v2, h⟩
    · rw [h]; exact fun h2 => ⟨u2, h2, rfl⟩
    · rw [h]; exact pin_setBalance b n v m u2
    · rw [h]
      intro h2
      obtain ⟨u1, hu1, hp1⟩ := pin_setBalance _ n2 v2 m u2 h2
      obtain ⟨u0, hu0, hp0⟩ := pin_setBalance b n1 v1 m u1 hu1
      exact ⟨u0, hu0, hp1.trans hp0⟩
  · intro n a resp b2 hok m hm
    have hb2 : b2 = (deposit b n a).2 := by rw [hok]
    rcases deposit_state_cases b n a with h | ⟨u, _, _, h⟩
    · rw [hb2, h]
    · rw [hb2, h, usersGet_setBalance_ne _ _ _ _ hm]
  · intro sn sp rn a resp b2 hok m hms hmr
    have hb2 : b2 = (bank_transfer b sn sp rn a).2 := by rw [hok]
    rcases transfer_state_cases b sn sp rn a with h | ⟨s, r, _, _, _, _, _, h⟩
    · rw [hb2, h]
    · rw [hb2, h, usersGet_setBalance_ne _ _ _ _ hmr,
        usersGet_setBalance_ne _ _ _ _ hms]

theorem frame_spec_witness :
    ((authenticate initialUsers "Ali" 1234).2 = initialUsers) ∧
    (∃ u1, usersGet initialUsers "Sara" = some u1 ∧
      (⟨4321, 15000⟩ : Account).pin = u1.pin) ∧
    usersGet (deposit initialUsers "Ali" 5).2 "Sara" =
      usersGet initialUsers "Sara" :=
  ⟨(frame_spec initialUsers).2.2.2.1 "Ali" 1234,
    (frame_spec initialUsers).2.2.1 Op.list_users "Sara" ⟨4321, 15000⟩ (by decide),
    (frame_spec initialUsers).2.2.2.2.1 "Ali" 5 ⟨"Ali", 1234, (10000 : Rat) + 5⟩
      (setBalance initialUsers "Ali" ((10000 : Rat) + 5))
      (deposit_success_spec_witness).1 "Sara" (by decide)⟩

/-- C10: transfer authentication failure leaks nothing — on the same state, a
request with a nonexistent sender and a request with an existing sender but a
wrong pin produce the identical 401 result, status and message alike. -/
theorem transfer_auth_indistinguishable (b : Bank) (s1 s2 : String)
    (p1 p2 : Int) (r1 r2 : String) (a1 a2 : Rat) (u : Account)
    (h1 : usersGet b s1 = none) (h2 : usersGet b s2 = some u)
    (hp : u.pin ≠ p2) :
    bank_transfer b s1 p1 r1 a1 = bank_transfer b s2 p2 r2 a2 ∧
    bank_transfer b s1 p1 r1 a1 =
      (.error ⟨401, "Invalid sender credentials."⟩, b) := by
  have ha1 : authUser b s1 p1 = false := by unfold authUser; rw [h1]
  have ha2 : authUser b s2 p2 = false := by
    unfold authUser
    rw [h2]
    exact beq_eq_false_iff_ne.mpr hp
  have e1 : bank_transfer b s1 p1 r1 a1 =
      (.error ⟨401, "Invalid sender credentials."⟩, b) := by
    unfold bank_transfer
    simp [ha1]
  have e2 : bank_transfer b s2 p2 r2 a2 =
      (.error ⟨401, "Invalid sender credentials."⟩, b) := by
    unfold bank_transfer
    simp [ha2]
  exact ⟨e1.trans e2.symm, e1⟩

theorem transfer_auth_indistinguishable_witness :
    bank_transfer initialUsers "Nobody" 1 "Sara" 10 =
      bank_transfer initialUsers "Ali" 9999 "Ghost" 20 ∧
    bank_transfer initialUsers "Nobody" 1 "Sara" 10 =
      (.error ⟨401, "Invalid sender credentials."⟩, initialUsers) :=
  transfer_auth_indistinguishable initialUsers "Nobody" "Ali" 1 9999 "Sara"
    "Ghost" 10 20 ⟨1234, 10000⟩ (by decide) (by decide) (by decide)

end BankApp
